import Mathlib

/-!
Shallow embedding of the Progress & Completion Engine of the `pbl3-lms`
Django backend (app `lms_api/enrollments`, plus the `courses` catalog it
reads).  Database tables become lists of rows; each HTTP endpoint becomes a
function from a request and a database state to the new state and a
response.  ORM lookups (`get`, `filter(...).first()`, `get_or_create`)
become `List.find?`; `save()` on a fetched row becomes a map over the table
that rewrites the rows matching the row's unique key (the `unique_together`
constraints of `models.py` make the key determine the row).

Timestamps (`timezone.now()`) and freshly generated certificate codes /
primary keys are nondeterministic inputs of the real system; they are passed
in as explicit parameters.  Immutable bookkeeping fields that no modelled
operation ever reads (`created_at`, `Payment.currency`, `Payment.status`,
`Payment.reference_code`, lesson titles, prices as decimals — modelled as
naturals) are omitted or simplified; every field an operation reads or
writes is present.
-/

namespace LMS

/-- User roles, from `users/models.py` (`ROLE_CHOICES`). -/
inductive Role where
  | student
  | teacher
  | admin
  deriving DecidableEq, Repr

/-- The authenticated principal (`request.user`): id plus role. -/
structure User where
  id : Nat
  role : Role
  deriving DecidableEq, Repr

/-- `courses.models.Course` (fields the engine reads). -/
structure Course where
  id : Nat
  teacherId : Nat
  price : Nat
  isPublished : Bool
  deriving DecidableEq, Repr

/-- `courses.models.Section`: belongs to a course. -/
structure Section where
  id : Nat
  courseId : Nat
  deriving DecidableEq, Repr

/-- `courses.models.Lesson`: belongs to a section. -/
structure Lesson where
  id : Nat
  sectionId : Nat
  deriving DecidableEq, Repr

/-- `Enrollment.ENROLLMENT_TYPES`. -/
inductive EnrollType where
  | audit
  | paid
  deriving DecidableEq, Repr

/-- `enrollments.models.Enrollment`; `unique_together ['student', 'course']`,
so the (studentId, courseId) pair is the row's key. -/
structure Enrollment where
  studentId : Nat
  courseId : Nat
  progressPercent : Nat
  enrollmentType : EnrollType
  pricePaid : Nat
  grantedCertificate : Bool
  deriving DecidableEq, Repr

/-- `enrollments.models.LessonProgress`; its `enrollment` foreign key is
represented by the enrollment's unique (studentId, courseId) key;
`unique_together ['enrollment', 'lesson']`. -/
structure LessonProgress where
  studentId : Nat
  courseId : Nat
  lessonId : Nat
  isCompleted : Bool
  completedAt : Option Nat
  deriving DecidableEq, Repr

/-- `enrollments.models.Certificate`; `unique_together ['user', 'course']`;
the `enrollment` back-reference is determined by the same (user, course)
pair.  `certificate_code` is an opaque token, modelled as a natural. -/
structure Certificate where
  id : Nat
  userId : Nat
  courseId : Nat
  certificateCode : Nat
  issuedAt : Nat
  deriving DecidableEq, Repr

/-- `enrollments.models.Payment` ledger row (fields the engine writes and the
claims read; `currency`, `status` and `reference_code` are constants or
generated noise and are omitted). -/
structure Payment where
  userId : Nat
  courseId : Nat
  amount : Nat
  source : String
  deriving DecidableEq, Repr

/-- `enrollments.models.CartItem`; `unique_together ('user', 'course')`. -/
structure CartItem where
  userId : Nat
  courseId : Nat
  priceAtAdd : Nat
  deriving DecidableEq, Repr

/-- The relational store: one list of rows per table. -/
@[ext]
structure St where
  courses : List Course
  sections : List Section
  lessons : List Lesson
  enrollments : List Enrollment
  progresses : List LessonProgress
  certificates : List Certificate
  payments : List Payment
  cartItems : List CartItem
  deriving DecidableEq, Repr

/-- Responses of the modelled endpoints, one constructor per distinct
response the views can produce (4xx reasons kept distinct exactly as the
views keep their `detail` strings distinct). -/
inductive Resp where
  | lessonNotFound                                  -- 404 'Lesson not found.'
  | mustEnrollFirst                                 -- 400 'You must enroll in this course first.'
  | lessonCompleted (lessonId : Nat) (progressPercent : Nat)  -- 200
  | courseNotFound                                  -- 404 'Course not found or not published.'
  | alreadyEnrolled                                 -- 400 'You are already enrolled in this course.'
  | enrollCreated (e : Enrollment)                  -- 201, serialized enrollment
  | onlyStudents                                    -- 403 'Only students can ...'
  | cannotPurchaseOwn                               -- 400 'You cannot purchase your own course.'
  | badMode                                         -- 400 'Mode must be "audit" or "paid".'
  | alreadyPurchased                                -- 200 'Already purchased'
  | upgradedToPaid                                  -- 200 'Upgraded to paid enrollment'
  | enrolledAsAudit                                 -- 201 'Enrolled as audit'
  | coursePurchased                                 -- 201 'Course purchased successfully'
  | invalidEnrollmentState                          -- 400 'Invalid enrollment state.'
  | certOnlyPaid                                    -- 400 'Certificate only for paid enrollments.'
  | courseHasNoLessons                              -- 400 'Course has no lessons.'
  | courseNotCompleted                              -- 400 'Course not completed yet.'
  | certData (certificateId certificateCode issuedAt statusCode : Nat)  -- 200 existing / 201 fresh
  deriving DecidableEq, Repr

/-- Key predicate for an enrollment row: `student=..., course=...`. -/
def enrollKey (sid cid : Nat) (e : Enrollment) : Bool :=
  e.studentId == sid && e.courseId == cid

/-- Key predicate for a lesson-progress row: `enrollment=..., lesson=...`. -/
def progressKey (sid cid lid : Nat) (p : LessonProgress) : Bool :=
  p.studentId == sid && p.courseId == cid && p.lessonId == lid

/-- `lesson.section.course` traversal (`select_related('section',
'section__course')`): the course id a lesson belongs to, if its section
exists. -/
def courseIdOfLesson (s : St) (l : Lesson) : Option Nat :=
  (s.sections.find? (fun sec => sec.id == l.sectionId)).map (fun sec => sec.courseId)

/-- `Lesson.objects.filter(section__course=course).count()`. -/
def totalLessons (s : St) (cid : Nat) : Nat :=
  (s.lessons.filter (fun l => courseIdOfLesson s l == some cid)).length

/-- Row predicate of `LessonProgress.objects.filter(enrollment=...,
is_completed=True)`. -/
def completedKey (sid cid : Nat) (p : LessonProgress) : Bool :=
  p.studentId == sid && p.courseId == cid && p.isCompleted

/-- `LessonProgress.objects.filter(enrollment=..., is_completed=True).count()`
over a given progress table. -/
def completedIn (ps : List LessonProgress) (sid cid : Nat) : Nat :=
  (ps.filter (completedKey sid cid)).length

/-- The same count over the state's progress table. -/
def completedLessons (s : St) (sid cid : Nat) : Nat :=
  completedIn s.progresses sid cid

/-- The progress formula of `CompleteLessonAPIView.create`:
`int((completed_lessons * 100) / total_lessons)` if `total_lessons > 0` else
`0`.  Python's `int(...)` truncates the true quotient toward zero, which on
the non-negative counts here is floor division. -/
def recalcPercent (total completed : Nat) : Nat :=
  if total > 0 then (completed * 100) / total else 0

/-- `LessonProgress.objects.get_or_create(enrollment=..., lesson=...,
defaults={'is_completed': False})` — the table after the call. -/
def getOrCreateProgress (ps : List LessonProgress) (sid cid lid : Nat) : List LessonProgress :=
  match ps.find? (progressKey sid cid lid) with
  | some _ => ps
  | none => ps ++ [⟨sid, cid, lid, false, none⟩]

/-- Row rewrite of `if not lesson_progress.is_completed: is_completed = True;
completed_at = now; save()`. -/
def markFun (sid cid lid now : Nat) (p : LessonProgress) : LessonProgress :=
  if progressKey sid cid lid p && !p.isCompleted
  then { p with isCompleted := true, completedAt := some now }
  else p

/-- `if not lesson_progress.is_completed: is_completed = True; completed_at =
now; save()` — rewrites the (unique) matching row. -/
def markCompleted (ps : List LessonProgress) (sid cid lid now : Nat) : List LessonProgress :=
  ps.map (markFun sid cid lid now)

/-- Row rewrite of `enrollment.progress_percent = pct; enrollment.save()`. -/
def setPctFun (sid cid pct : Nat) (e : Enrollment) : Enrollment :=
  if enrollKey sid cid e then { e with progressPercent := pct } else e

/-- `enrollment.progress_percent = pct; enrollment.save()` — rewrites the
(unique) row with the enrollment's key. -/
def setProgressPercent (es : List Enrollment) (sid cid pct : Nat) : List Enrollment :=
  es.map (setPctFun sid cid pct)

/-- `CompleteLessonAPIView.create` (POST /api/lessons/<id>/complete/).
`now` is `timezone.now()`. -/
def completeLesson (s : St) (user : User) (lessonId now : Nat) : St × Resp :=
  match s.lessons.find? (fun l => l.id == lessonId) with
  | none => (s, .lessonNotFound)
  | some lesson =>
    match courseIdOfLesson s lesson with
    | none => (s, .lessonNotFound)  -- dangling section FK cannot occur in the DB
    | some cid =>
      match s.enrollments.find? (enrollKey user.id cid) with
      | none => (s, .mustEnrollFirst)
      | some _ =>
        let ps := markCompleted (getOrCreateProgress s.progresses user.id cid lesson.id)
          user.id cid lesson.id now
        let s1 : St := { s with progresses := ps }
        let pct := recalcPercent (totalLessons s1 cid) (completedLessons s1 user.id cid)
        let s2 : St := { s1 with enrollments := setProgressPercent s1.enrollments user.id cid pct }
        (s2, .lessonCompleted lesson.id pct)

/-- `EnrollCourseAPIView.create` (POST /api/courses/<id>/enroll/).
`get_or_create` defaults: `progress_percent=0`; model defaults give
`enrollment_type="audit"`, `price_paid=0`, `granted_certificate=False`.
Note: this view checks neither the caller's role nor course ownership. -/
def enrollCourse (s : St) (user : User) (courseId : Nat) : St × Resp :=
  match s.courses.find? (fun c => c.id == courseId && c.isPublished) with
  | none => (s, .courseNotFound)
  | some course =>
    match s.enrollments.find? (enrollKey user.id course.id) with
    | some _ => (s, .alreadyEnrolled)
    | none =>
      let e : Enrollment := ⟨user.id, course.id, 0, .audit, 0, false⟩
      ({ s with enrollments := s.enrollments ++ [e] }, .enrollCreated e)

/-- Row rewrite of `existing.enrollment_type = 'paid'; existing.price_paid =
course.price or 0; existing.save()`. -/
def upgradeFun (sid cid price : Nat) (e : Enrollment) : Enrollment :=
  if enrollKey sid cid e then { e with enrollmentType := .paid, pricePaid := price } else e

/-- `existing.enrollment_type = 'paid'; existing.price_paid = course.price or 0;
existing.save()` — rewrites the (unique) row with the enrollment's key. -/
def upgradeToPaid (es : List Enrollment) (sid cid price : Nat) : List Enrollment :=
  es.map (upgradeFun sid cid price)

/-- `PurchaseCourseAPIView.post` (POST /api/courses/<id>/purchase/), body
`{mode}` (the view defaults a missing mode to `"paid"` before validating). -/
def purchaseCourse (s : St) (user : User) (courseId : Nat) (mode : String) : St × Resp :=
  if user.role != .student then (s, .onlyStudents)
  else
    match s.courses.find? (fun c => c.id == courseId && c.isPublished) with
    | none => (s, .courseNotFound)
    | some course =>
      if course.teacherId == user.id then (s, .cannotPurchaseOwn)
      else if mode != "audit" && mode != "paid" then (s, .badMode)
      else
        match s.enrollments.find? (enrollKey user.id course.id) with
        | some existing =>
          -- Case a: already has paid enrollment
          if existing.enrollmentType == .paid then (s, .alreadyPurchased)
          -- Case b: audit enrollment upgrading to paid
          else if existing.enrollmentType == .audit && mode == "paid" then
            let pay : Payment := ⟨user.id, course.id, course.price, "upgrade"⟩
            ({ s with enrollments := upgradeToPaid s.enrollments user.id course.id course.price,
                      payments := s.payments ++ [pay] }, .upgradedToPaid)
          -- Fallback ('should not reach here'): audit enrollment + audit mode
          else (s, .invalidEnrollmentState)
        | none =>
          -- Case c: audit enrollment, no existing
          if mode == "audit" then
            ({ s with enrollments :=
                 s.enrollments ++ [⟨user.id, course.id, 0, .audit, 0, false⟩] },
             .enrolledAsAudit)
          -- Case d: paid enrollment, no existing
          else
            let e : Enrollment := ⟨user.id, course.id, 0, .paid, course.price, false⟩
            let pay : Payment := ⟨user.id, course.id, course.price, "single"⟩
            ({ s with enrollments := s.enrollments ++ [e],
                      payments := s.payments ++ [pay] }, .coursePurchased)

/-- Row rewrite of `enrollment.granted_certificate = True; enrollment.save()`. -/
def grantFun (sid cid : Nat) (e : Enrollment) : Enrollment :=
  if enrollKey sid cid e then { e with grantedCertificate := true } else e

/-- `enrollment.granted_certificate = True; enrollment.save()`. -/
def setGranted (es : List Enrollment) (sid cid : Nat) : List Enrollment :=
  es.map (grantFun sid cid)

/-- `IssueCertificateAPIView.post` (POST /api/courses/<id>/certificate/issue/).
`now` is the issuance timestamp, `certId` / `code` the freshly generated
primary key and `uuid4` certificate code of the created row.  Note the
view's order: the paid-enrollment lookup runs BEFORE the existing-certificate
check. -/
def issueCertificate (s : St) (user : User) (courseId now certId code : Nat) : St × Resp :=
  if user.role != .student then (s, .onlyStudents)
  else
    match s.courses.find? (fun c => c.id == courseId && c.isPublished) with
    | none => (s, .courseNotFound)
    | some course =>
      match s.enrollments.find? (fun e =>
          enrollKey user.id course.id e && e.enrollmentType == .paid) with
      | none => (s, .certOnlyPaid)
      | some _ =>
        match s.certificates.find? (fun c => c.userId == user.id && c.courseId == course.id) with
        | some cert => (s, .certData cert.id cert.certificateCode cert.issuedAt 200)
        | none =>
          let total := totalLessons s course.id
          let completed := completedLessons s user.id course.id
          if total == 0 then (s, .courseHasNoLessons)
          else if completed < total then (s, .courseNotCompleted)
          else
            let cert : Certificate := ⟨certId, user.id, course.id, code, now⟩
            ({ s with certificates := s.certificates ++ [cert],
                      enrollments := setGranted s.enrollments user.id course.id },
             .certData certId code now 201)

/-- Results of `CartCheckoutAPIView.post`. `integrityError` stands for the
`IntegrityError` the database raises when the `unique_together ['student',
'course']` constraint rejects `Enrollment.objects.create` for a pair that
already has a row; the enrollments and payments created by earlier loop
iterations have already been committed (no transaction wraps the view). -/
inductive CheckoutResult where
  | notStudent
  | noItems
  | done (enrolled skipped : List Nat)
  | integrityError (enrolled skipped : List Nat)
  deriving DecidableEq, Repr

/-- The checkout loop body of `CartCheckoutAPIView.post`: skips a course the
user already owns as PAID; otherwise issues `Enrollment.objects.create`,
which the unique constraint rejects whenever ANY enrollment row (audit
included) already exists for the pair. -/
def checkoutLoop (user : User) : List CartItem → St → List Nat → List Nat → St × CheckoutResult
  | [], s, created, skipped =>
    -- items.delete(): remove the checked-out items (all of the user's items here)
    ({ s with cartItems := s.cartItems.filter (fun it => !(it.userId == user.id)) },
     .done created.reverse skipped.reverse)
  | item :: rest, s, created, skipped =>
    if (s.enrollments.find? (fun e =>
        enrollKey user.id item.courseId e && e.enrollmentType == .paid)).isSome then
      checkoutLoop user rest s created (item.courseId :: skipped)
    else if (s.enrollments.find? (enrollKey user.id item.courseId)).isSome then
      (s, .integrityError created.reverse skipped.reverse)
    else
      let e : Enrollment := ⟨user.id, item.courseId, 0, .paid, item.priceAtAdd, false⟩
      let pay : Payment := ⟨user.id, item.courseId, item.priceAtAdd, "cart"⟩
      checkoutLoop user rest
        { s with enrollments := s.enrollments ++ [e], payments := s.payments ++ [pay] }
        (item.courseId :: created) skipped

/-- `CartCheckoutAPIView.post` (POST /api/cart/checkout/), checkout-all path
(no `item_ids` in the body). -/
def cartCheckout (s : St) (user : User) : St × CheckoutResult :=
  if user.role != .student then (s, .notStudent)
  else
    let items := s.cartItems.filter (fun it => it.userId == user.id)
    if items.isEmpty then (s, .noItems)
    else checkoutLoop user items s [] []

/-- Error classification of a response: the 4xx/403/404 branches of the
views, as opposed to their 200/201 success payloads. -/
def Resp.isError : Resp → Bool
  | .lessonNotFound => true
  | .mustEnrollFirst => true
  | .courseNotFound => true
  | .alreadyEnrolled => true
  | .onlyStudents => true
  | .cannotPurchaseOwn => true
  | .badMode => true
  | .invalidEnrollmentState => true
  | .certOnlyPaid => true
  | .courseHasNoLessons => true
  | .courseNotCompleted => true
  | .lessonCompleted _ _ => false
  | .enrollCreated _ => false
  | .alreadyPurchased => false
  | .upgradedToPaid => false
  | .enrolledAsAudit => false
  | .coursePurchased => false
  | .certData _ _ _ _ => false

/-- The derived-progress consistency invariant: every enrollment row's cached
`progress_percent` equals the recomputation of §4.1 over the current tables. -/
def Consistent (s : St) : Prop :=
  ∀ e ∈ s.enrollments,
    e.progressPercent =
      recalcPercent (totalLessons s e.courseId) (completedLessons s e.studentId e.courseId)

/-- The persisted `progress_percent` of the (student, course) enrollment row
(0 if the row is absent). -/
def pctOf (s : St) (sid cid : Nat) : Nat :=
  ((s.enrollments.find? (enrollKey sid cid)).map Enrollment.progressPercent).getD 0

/-- At most one Certificate row per (user, course) pair — the
`unique_together ['user', 'course']` invariant of the certificates table. -/
def AtMostOneCert (s : St) : Prop :=
  ∀ c1 ∈ s.certificates, ∀ c2 ∈ s.certificates,
    c1.userId = c2.userId → c1.courseId = c2.courseId → c1 = c2

/-- Run a sequence of complete-lesson calls: each list entry is the calling
user, the lesson id and the `timezone.now()` timestamp of the call. -/
def runCompletions (s : St) : List (User × Nat × Nat) → St
  | [] => s
  | c :: rest => runCompletions (completeLesson s c.1 c.2.1 c.2.2).1 rest

/-- Modelled from the spec: outcome column of the decision table of §4.4
(existing enrollment state × requested mode), with the audit+audit row taken
from the code's actual fallback response. -/
def tableOutcome (existing : Option EnrollType) (mode : String) : Resp :=
  match existing with
  | none => if mode == "audit" then .enrolledAsAudit else .coursePurchased
  | some .audit => if mode == "paid" then .upgradedToPaid else .invalidEnrollmentState
  | some .paid => .alreadyPurchased

/-- Modelled from the spec: the payment-ledger entries the decision table of
§4.4 records for each (existing, requested) combination. -/
def tablePayments (existing : Option EnrollType) (mode : String)
    (uid cid price : Nat) : List Payment :=
  match existing with
  | none => if mode == "paid" then [⟨uid, cid, price, "single"⟩] else []
  | some .audit => if mode == "paid" then [⟨uid, cid, price, "upgrade"⟩] else []
  | some .paid => []

/-! ### Concrete database states for counterexamples and witnesses -/

/-- Student 7 holds an AUDIT enrollment in published course 1 (teacher 9,
price 50) and (user 7, course 1) already has certificate 5 with code 42,
issued at time 10. -/
def stC1 : St :=
  { courses := [⟨1, 9, 50, true⟩], sections := [], lessons := [],
    enrollments := [⟨7, 1, 0, .audit, 0, false⟩], progresses := [],
    certificates := [⟨5, 7, 1, 42, 10⟩], payments := [], cartItems := [] }

/-- Same as `stC1` but the enrollment is PAID (the reachable shape once a
certificate exists). -/
def stC1W : St :=
  { courses := [⟨1, 9, 50, true⟩], sections := [], lessons := [],
    enrollments := [⟨7, 1, 100, .paid, 50, true⟩], progresses := [],
    certificates := [⟨5, 7, 1, 42, 10⟩], payments := [], cartItems := [] }

/-- Published course 1 with one section and two lessons; student 7 is
audit-enrolled with no progress yet. -/
def stC2W : St :=
  { courses := [⟨1, 9, 50, true⟩], sections := [⟨1, 1⟩],
    lessons := [⟨1, 1⟩, ⟨2, 1⟩],
    enrollments := [⟨7, 1, 0, .audit, 0, false⟩], progresses := [],
    certificates := [], payments := [], cartItems := [] }

/-- Student 7 holds an AUDIT enrollment in published course 1. -/
def stC4 : St :=
  { courses := [⟨1, 9, 50, true⟩], sections := [], lessons := [],
    enrollments := [⟨7, 1, 0, .audit, 0, false⟩], progresses := [],
    certificates := [], payments := [], cartItems := [] }

/-- Published course 1 owned by teacher 9; nobody is enrolled. -/
def stC5 : St :=
  { courses := [⟨1, 9, 50, true⟩], sections := [], lessons := [],
    enrollments := [], progresses := [],
    certificates := [], payments := [], cartItems := [] }

/-- Published course 1 with one lesson; student 7 is PAID-enrolled and has
completed that lesson. -/
def stC6W : St :=
  { courses := [⟨1, 9, 50, true⟩], sections := [⟨1, 1⟩], lessons := [⟨1, 1⟩],
    enrollments := [⟨7, 1, 100, .paid, 50, false⟩],
    progresses := [⟨7, 1, 1, true, some 3⟩],
    certificates := [], payments := [], cartItems := [] }

/-- Student 7 holds an AUDIT enrollment in published course 1 and has that
course in their cart. -/
def stC7 : St :=
  { courses := [⟨1, 9, 50, true⟩], sections := [], lessons := [],
    enrollments := [⟨7, 1, 0, .audit, 0, false⟩], progresses := [],
    certificates := [], payments := [], cartItems := [⟨7, 1, 50⟩] }

/-- Published course 1 with one section and two lessons; student 7 is
audit-enrolled, consistent zero progress. -/
def stC8W : St :=
  { courses := [⟨1, 9, 50, true⟩], sections := [⟨1, 1⟩],
    lessons := [⟨1, 1⟩, ⟨2, 1⟩],
    enrollments := [⟨7, 1, 0, .audit, 0, false⟩], progresses := [],
    certificates := [], payments := [], cartItems := [] }

/-- An empty database. -/
def stC9W : St :=
  { courses := [], sections := [], lessons := [], enrollments := [],
    progresses := [], certificates := [], payments := [], cartItems := [] }

/-- UNPUBLISHED course 1 with one section and one lesson; student 7 is
audit-enrolled. -/
def stC10W : St :=
  { courses := [⟨1, 9, 50, false⟩], sections := [⟨1, 1⟩], lessons := [⟨1, 1⟩],
    enrollments := [⟨7, 1, 0, .audit, 0, false⟩], progresses := [],
    certificates := [], payments := [], cartItems := [] }

/-! ### Generic list lemmas -/

theorem find?_eq_some_of_unique {α : Type} (p : α → Bool) :
    ∀ (l : List α) (a : α), a ∈ l → p a = true → (∀ b ∈ l, p b = true → b = a) →
      l.find? p = some a
  | [], a, ha, _, _ => absurd ha (List.not_mem_nil a)
  | x :: xs, a, ha, hpa, huniq => by
    by_cases hx : p x = true
    · have hxa : x = a := huniq x (List.mem_cons_self x xs) hx
      subst hxa
      exact List.find?_cons_of_pos _ hx
    · rw [List.find?_cons_of_neg _ hx]
      have ha' : a ∈ xs := by
        rcases List.mem_cons.mp ha with h | h
        · exact absurd (h ▸ hpa) hx
        · exact h
      exact find?_eq_some_of_unique p xs a ha' hpa
        (fun b hb hpb => huniq b (List.mem_cons_of_mem _ hb) hpb)

theorem length_filter_map_eq {α : Type} (f : α → α) (p : α → Bool) (l : List α)
    (h : ∀ x, p (f x) = p x) :
    ((l.map f).filter p).length = (l.filter p).length := by
  rw [List.filter_map, List.length_map]
  exact congrArg List.length (List.filter_congr (fun a _ => h a))

theorem length_filter_le_map {α : Type} (f : α → α) (p : α → Bool) (l : List α)
    (h : ∀ x, p x = true → p (f x) = true) :
    (l.filter p).length ≤ ((l.map f).filter p).length := by
  rw [← List.countP_eq_length_filter, ← List.countP_eq_length_filter, List.countP_map]
  exact List.countP_mono_left (fun x _ hx => h x hx)

theorem find?_map_pres {α : Type} (f : α → α) (p : α → Bool) (l : List α)
    (h : ∀ x, p (f x) = p x) :
    (l.map f).find? p = (l.find? p).map f := by
  induction l with
  | nil => rfl
  | cons x xs ih =>
    by_cases hx : p x = true
    · rw [List.map_cons, List.find?_cons_of_pos _ ((h x).trans hx),
        List.find?_cons_of_pos _ hx]
      rfl
    · have hfx : ¬ p (f x) = true := fun hc => hx ((h x).symm.trans hc)
      rw [List.map_cons, List.find?_cons_of_neg _ hfx, List.find?_cons_of_neg _ hx, ih]

/-! ### Key-preservation facts about the row-rewrite functions -/

theorem progressKey_markFun (a b c sid cid lid now : Nat) (p : LessonProgress) :
    progressKey a b c (markFun sid cid lid now p) = progressKey a b c p := by
  unfold markFun
  split <;> rfl

theorem completedKey_markFun_of_ne (a b sid cid lid now : Nat) (p : LessonProgress)
    (h : ¬(a = sid ∧ b = cid)) :
    completedKey a b (markFun sid cid lid now p) = completedKey a b p := by
  unfold markFun
  split
  · next hcond =>
    have hkey : progressKey sid cid lid p = true ∧ !p.isCompleted = true := by
      simpa using hcond
    have hids : p.studentId = sid ∧ p.courseId = cid ∧ p.lessonId = lid := by
      have := hkey.1
      simpa [progressKey, Bool.and_assoc] using this
    have hpair : (p.studentId == a && p.courseId == b) = false := by
      rcases Decidable.em (p.studentId == a) with hsa | hsa
      · rcases Decidable.em (p.courseId == b) with hcb | hcb
        · exact absurd ⟨by rw [← beq_iff_eq.mp hsa, hids.1],
            by rw [← beq_iff_eq.mp hcb, hids.2.1]⟩ h
        · simp [Bool.eq_false_iff.mpr hcb]
      · simp [Bool.eq_false_iff.mpr hsa]
    have hnc : p.isCompleted = false := by
      have := hkey.2
      simpa using this
    simp [completedKey, hpair, hnc]
  · rfl

theorem completedKey_markFun_mono (a b sid cid lid now : Nat) (p : LessonProgress)
    (h : completedKey a b p = true) :
    completedKey a b (markFun sid cid lid now p) = true := by
  unfold markFun
  split
  · next hcond =>
    have hnc : p.isCompleted = false := by
      have hc2 : (!p.isCompleted) = true := by
        have := hcond
        simp only [Bool.and_eq_true] at this
        exact this.2
      simpa using hc2
    have : p.isCompleted = true := by
      have hh := h
      simp only [completedKey, Bool.and_eq_true] at hh
      exact hh.2
    rw [hnc] at this
    cases this
  · exact h

theorem enrollKey_setPctFun (a b sid cid pct : Nat) (e : Enrollment) :
    enrollKey a b (setPctFun sid cid pct e) = enrollKey a b e := by
  unfold setPctFun
  split <;> rfl

theorem enrollKey_upgradeFun (a b sid cid price : Nat) (e : Enrollment) :
    enrollKey a b (upgradeFun sid cid price e) = enrollKey a b e := by
  unfold upgradeFun
  split <;> rfl

theorem enrollKey_grantFun (a b sid cid : Nat) (e : Enrollment) :
    enrollKey a b (grantFun sid cid e) = enrollKey a b e := by
  unfold grantFun
  split <;> rfl

theorem setPctFun_idem (sid cid pct : Nat) (e : Enrollment) :
    setPctFun sid cid pct (setPctFun sid cid pct e) = setPctFun sid cid pct e := by
  unfold setPctFun
  by_cases h : enrollKey sid cid e = true
  · simp only [if_pos h]
    rw [if_pos]
    exact (enrollKey_setPctFun sid cid sid cid pct e).symm ▸ h
  · simp only [if_neg h, if_neg h]

/-! ### The successful complete-lesson call, characterised -/

/-- The progress table a successful complete-lesson call leaves behind. -/
def postProgresses (s : St) (sid cid lid now : Nat) : List LessonProgress :=
  markCompleted (getOrCreateProgress s.progresses sid cid lid) sid cid lid now

/-- The percentage a successful complete-lesson call computes and persists. -/
def postPct (s : St) (sid cid lid now : Nat) : Nat :=
  recalcPercent (totalLessons s cid) (completedIn (postProgresses s sid cid lid now) sid cid)

/-- The full state a successful complete-lesson call leaves behind. -/
def postState (s : St) (sid cid lid now : Nat) : St :=
  { s with progresses := postProgresses s sid cid lid now,
           enrollments := setProgressPercent s.enrollments sid cid (postPct s sid cid lid now) }

theorem completeLesson_success (s : St) (u : User) (lid now : Nat) (lesson : Lesson)
    (cid : Nat) (e0 : Enrollment)
    (hl : s.lessons.find? (fun l => l.id == lid) = some lesson)
    (hc : courseIdOfLesson s lesson = some cid)
    (he : s.enrollments.find? (enrollKey u.id cid) = some e0) :
    completeLesson s u lid now =
      (postState s u.id cid lesson.id now,
       .lessonCompleted lesson.id (postPct s u.id cid lesson.id now)) := by
  simp only [completeLesson, hl, hc, he]
  rfl

theorem exists_key_postProgresses (s : St) (sid cid lid now : Nat) :
    ∃ p ∈ postProgresses s sid cid lid now, progressKey sid cid lid p = true := by
  unfold postProgresses getOrCreateProgress markCompleted
  cases hfind : s.progresses.find? (progressKey sid cid lid) with
  | none =>
    refine ⟨markFun sid cid lid now ⟨sid, cid, lid, false, none⟩,
      List.mem_map_of_mem _ (by simp), ?_⟩
    rw [progressKey_markFun]
    simp [progressKey]
  | some r =>
    refine ⟨markFun sid cid lid now r,
      List.mem_map_of_mem _ (List.mem_of_find?_eq_some hfind), ?_⟩
    rw [progressKey_markFun]
    exact List.find?_some hfind

theorem key_postProgresses_completed (s : St) (sid cid lid now : Nat) :
    ∀ p ∈ postProgresses s sid cid lid now, progressKey sid cid lid p = true →
      p.isCompleted = true := by
  unfold postProgresses markCompleted
  intro p hp hkey
  rcases List.mem_map.mp hp with ⟨q, _, rfl⟩
  by_cases hcond : (progressKey sid cid lid q && !q.isCompleted) = true
  · unfold markFun
    rw [if_pos hcond]
  · have heq : markFun sid cid lid now q = q := by
      unfold markFun
      rw [if_neg hcond]
    rw [heq] at hkey ⊢
    by_cases hic : q.isCompleted = true
    · exact hic
    · exact absurd (by simp [hkey, hic]) hcond

theorem getOrCreate_post (s : St) (sid cid lid now : Nat) :
    getOrCreateProgress (postProgresses s sid cid lid now) sid cid lid =
      postProgresses s sid cid lid now := by
  obtain ⟨p, hp, hkey⟩ := exists_key_postProgresses s sid cid lid now
  have hsome : ((postProgresses s sid cid lid now).find? (progressKey sid cid lid)).isSome := by
    rw [List.find?_isSome]
    exact ⟨p, hp, hkey⟩
  obtain ⟨r, hr⟩ := Option.isSome_iff_exists.mp hsome
  unfold getOrCreateProgress
  rw [hr]

theorem markCompleted_post (s : St) (sid cid lid now now2 : Nat) :
    markCompleted (postProgresses s sid cid lid now) sid cid lid now2 =
      postProgresses s sid cid lid now := by
  unfold markCompleted
  have h : ∀ p ∈ postProgresses s sid cid lid now, markFun sid cid lid now2 p = p := by
    intro p hp
    by_cases hkey : progressKey sid cid lid p = true
    · have hcomp := key_postProgresses_completed s sid cid lid now p hp hkey
      unfold markFun
      rw [if_neg]
      simp [hkey, hcomp]
    · have hkey' : progressKey sid cid lid p = false := by
        simpa using hkey
      unfold markFun
      rw [if_neg]
      simp [hkey']
  rw [List.map_congr_left h]
  simp

/-! ### Counting lemmas for the progress recomputation -/

theorem completedIn_getOrCreate (ps : List LessonProgress) (sid cid lid a b : Nat) :
    completedIn (getOrCreateProgress ps sid cid lid) a b = completedIn ps a b := by
  unfold getOrCreateProgress
  cases hfind : ps.find? (progressKey sid cid lid) with
  | some r => rfl
  | none =>
    unfold completedIn
    rw [List.filter_append]
    simp [completedKey]

theorem completedIn_mark_of_ne (ps : List LessonProgress) (sid cid lid now a b : Nat)
    (h : ¬(a = sid ∧ b = cid)) :
    completedIn (markCompleted ps sid cid lid now) a b = completedIn ps a b := by
  unfold completedIn markCompleted
  exact length_filter_map_eq _ _ _
    (fun p => completedKey_markFun_of_ne a b sid cid lid now p h)

theorem completedIn_le_mark (ps : List LessonProgress) (sid cid lid now a b : Nat) :
    completedIn ps a b ≤ completedIn (markCompleted ps sid cid lid now) a b := by
  unfold completedIn markCompleted
  exact length_filter_le_map _ _ _
    (fun p hp => completedKey_markFun_mono a b sid cid lid now p hp)

theorem completedIn_post_of_ne (s : St) (sid cid lid now a b : Nat)
    (h : ¬(a = sid ∧ b = cid)) :
    completedIn (postProgresses s sid cid lid now) a b = completedIn s.progresses a b := by
  unfold postProgresses
  rw [completedIn_mark_of_ne _ _ _ _ _ _ _ h, completedIn_getOrCreate]

theorem completedIn_le_post (s : St) (sid cid lid now a b : Nat) :
    completedIn s.progresses a b ≤ completedIn (postProgresses s sid cid lid now) a b := by
  unfold postProgresses
  calc completedIn s.progresses a b
      = completedIn (getOrCreateProgress s.progresses sid cid lid) a b :=
        (completedIn_getOrCreate s.progresses sid cid lid a b).symm
    _ ≤ _ := completedIn_le_mark _ sid cid lid now a b

theorem recalcPercent_zero (c : Nat) : recalcPercent 0 c = 0 := rfl

theorem recalcPercent_le_100 (t c : Nat) (h : c ≤ t) : recalcPercent t c ≤ 100 := by
  unfold recalcPercent
  split
  · next ht =>
    calc c * 100 / t ≤ t * 100 / t := Nat.div_le_div_right (Nat.mul_le_mul_right 100 h)
      _ = 100 := by
        rw [Nat.mul_comm]
        exact Nat.mul_div_cancel 100 ht
  · exact Nat.zero_le 100

theorem recalcPercent_mono (t c c2 : Nat) (h : c ≤ c2) :
    recalcPercent t c ≤ recalcPercent t c2 := by
  unfold recalcPercent
  split
  · exact Nat.div_le_div_right (Nat.mul_le_mul_right 100 h)
  · exact Nat.le_refl 0

/-- The `Course.objects.get(id=..., is_published=True)` lookup, pinned down by
membership, publication and id-uniqueness. -/
theorem findCourse_eq (s : St) (course : Course) (hm : course ∈ s.courses)
    (hpub : course.isPublished = true)
    (huniq : ∀ c ∈ s.courses, c.id = course.id → c = course) :
    s.courses.find? (fun c => c.id == course.id && c.isPublished) = some course := by
  apply find?_eq_some_of_unique
  · exact hm
  · simp [hpub]
  · intro b hb hpb
    simp only [Bool.and_eq_true, beq_iff_eq] at hpb
    exact huniq b hb hpb.1

theorem completeLesson_consistent (s : St) (u : User) (lid now : Nat)
    (hcons : Consistent s) : Consistent (completeLesson s u lid now).1 := by
  cases hl : s.lessons.find? (fun l => l.id == lid) with
  | none =>
    have hres : completeLesson s u lid now = (s, .lessonNotFound) := by
      simp only [completeLesson, hl]
    rw [hres]
    exact hcons
  | some lesson =>
    cases hc : courseIdOfLesson s lesson with
    | none =>
      have hres : completeLesson s u lid now = (s, .lessonNotFound) := by
        simp only [completeLesson, hl, hc]
      rw [hres]
      exact hcons
    | some cid =>
      cases he : s.enrollments.find? (enrollKey u.id cid) with
      | none =>
        have hres : completeLesson s u lid now = (s, .mustEnrollFirst) := by
          simp only [completeLesson, hl, hc, he]
        rw [hres]
        exact hcons
      | some e0 =>
        rw [completeLesson_success s u lid now lesson cid e0 hl hc he]
        intro e he2
        have he3 : e ∈ setProgressPercent s.enrollments u.id cid
            (postPct s u.id cid lesson.id now) := he2
        unfold setProgressPercent at he3
        rcases List.mem_map.mp he3 with ⟨x, hx, rfl⟩
        by_cases hkey : enrollKey u.id cid x = true
        · have hfx : setPctFun u.id cid (postPct s u.id cid lesson.id now) x =
              { x with progressPercent := postPct s u.id cid lesson.id now } := by
            unfold setPctFun
            rw [if_pos hkey]
          rw [hfx]
          have hid : x.studentId = u.id ∧ x.courseId = cid := by
            simpa [enrollKey] using hkey
          dsimp only
          rw [hid.1, hid.2]
          rfl
        · have hfx : setPctFun u.id cid (postPct s u.id cid lesson.id now) x = x := by
            unfold setPctFun
            rw [if_neg hkey]
          rw [hfx]
          have hneq : ¬(x.studentId = u.id ∧ x.courseId = cid) := by
            intro hcontra
            exact hkey (by simp [enrollKey, hcontra.1, hcontra.2])
          have hcomp : completedLessons (postState s u.id cid lesson.id now)
              x.studentId x.courseId = completedLessons s x.studentId x.courseId := by
            show completedIn (postProgresses s u.id cid lesson.id now) x.studentId x.courseId
              = completedIn s.progresses x.studentId x.courseId
            exact completedIn_post_of_ne s u.id cid lesson.id now x.studentId x.courseId hneq
          rw [hcomp]
          exact hcons x hx

theorem completeLesson_pct_mono (s : St) (u : User) (lid now sid cid : Nat)
    (hcons : Consistent s) :
    pctOf s sid cid ≤ pctOf (completeLesson s u lid now).1 sid cid := by
  cases hl : s.lessons.find? (fun l => l.id == lid) with
  | none =>
    have hres : completeLesson s u lid now = (s, .lessonNotFound) := by
      simp only [completeLesson, hl]
    rw [hres]
  | some lesson =>
    cases hc : courseIdOfLesson s lesson with
    | none =>
      have hres : completeLesson s u lid now = (s, .lessonNotFound) := by
        simp only [completeLesson, hl, hc]
      rw [hres]
    | some cid2 =>
      cases he : s.enrollments.find? (enrollKey u.id cid2) with
      | none =>
        have hres : completeLesson s u lid now = (s, .mustEnrollFirst) := by
          simp only [completeLesson, hl, hc, he]
        rw [hres]
      | some e0 =>
        rw [completeLesson_success s u lid now lesson cid2 e0 hl hc he]
        have hmap : (postState s u.id cid2 lesson.id now).enrollments.find?
            (enrollKey sid cid) = (s.enrollments.find? (enrollKey sid cid)).map
              (setPctFun u.id cid2 (postPct s u.id cid2 lesson.id now)) := by
          show (setProgressPercent s.enrollments u.id cid2
              (postPct s u.id cid2 lesson.id now)).find? (enrollKey sid cid) = _
          unfold setProgressPercent
          exact find?_map_pres _ _ _ (fun x => enrollKey_setPctFun sid cid u.id cid2 _ x)
        unfold pctOf
        rw [hmap]
        cases he2 : s.enrollments.find? (enrollKey sid cid) with
        | none => exact Nat.le_refl _
        | some e =>
          show e.progressPercent ≤
            (setPctFun u.id cid2 (postPct s u.id cid2 lesson.id now) e).progressPercent
          by_cases hkey : enrollKey u.id cid2 e = true
          · have hfx : setPctFun u.id cid2 (postPct s u.id cid2 lesson.id now) e =
                { e with progressPercent := postPct s u.id cid2 lesson.id now } := by
              unfold setPctFun
              rw [if_pos hkey]
            rw [hfx]
            have hc2 := hcons e (List.mem_of_find?_eq_some he2)
            have hid : e.studentId = u.id ∧ e.courseId = cid2 := by
              simpa [enrollKey] using hkey
            show e.progressPercent ≤ postPct s u.id cid2 lesson.id now
            rw [hc2, hid.1, hid.2]
            show recalcPercent (totalLessons s cid2) (completedIn s.progresses u.id cid2) ≤
              recalcPercent (totalLessons s cid2)
                (completedIn (postProgresses s u.id cid2 lesson.id now) u.id cid2)
            exact recalcPercent_mono _ _ _ (completedIn_le_post s u.id cid2 lesson.id now u.id cid2)
          · have hfx : setPctFun u.id cid2 (postPct s u.id cid2 lesson.id now) e = e := by
              unfold setPctFun
              rw [if_neg hkey]
            rw [hfx]

theorem runCompletions_consistent (calls : List (User × Nat × Nat)) (s : St)
    (hcons : Consistent s) : Consistent (runCompletions s calls) := by
  induction calls generalizing s with
  | nil => exact hcons
  | cons c rest ih => exact ih _ (completeLesson_consistent s c.1 c.2.1 c.2.2 hcons)

theorem count_one_of_find_some (l : List Enrollment) (sid cid : Nat) (ex : Enrollment)
    (hfind : l.find? (enrollKey sid cid) = some ex)
    (hone : (l.filter (enrollKey sid cid)).length ≤ 1) :
    (l.filter (enrollKey sid cid)).length = 1 := by
  have hmem : ex ∈ l.filter (enrollKey sid cid) :=
    List.mem_filter.mpr ⟨List.mem_of_find?_eq_some hfind, List.find?_some hfind⟩
  have hpos : 0 < (l.filter (enrollKey sid cid)).length :=
    List.length_pos.mpr (List.ne_nil_of_mem hmem)
  omega

theorem count_append_one_of_find_none (l : List Enrollment) (sid cid : Nat) (e : Enrollment)
    (hfind : l.find? (enrollKey sid cid) = none) (hkey : enrollKey sid cid e = true) :
    ((l ++ [e]).filter (enrollKey sid cid)).length = 1 := by
  have hnil : l.filter (enrollKey sid cid) = [] :=
    List.filter_eq_nil_iff.mpr (List.find?_eq_none.mp hfind)
  rw [List.filter_append, hnil, List.nil_append]
  simp [List.filter_cons, hkey]

theorem count_upgrade (l : List Enrollment) (sid cid price : Nat) :
    ((upgradeToPaid l sid cid price).filter (enrollKey sid cid)).length =
      (l.filter (enrollKey sid cid)).length := by
  unfold upgradeToPaid
  exact length_filter_map_eq _ _ _ (fun e => enrollKey_upgradeFun sid cid sid cid price e)

/-! ### Claim theorems -/

/-- C1 counterexample: in `stC1` a certificate for (student 7, course 1)
already exists, yet the issue operation answers with the NotPaidEnrollment
error instead of returning the existing certificate — the claim's "before
and regardless of any eligibility check" fails, because the view checks the
paid enrollment first. -/
theorem C1_issue_before_eligibility_counterexample :
    (Certificate.mk 5 7 1 42 10) ∈ stC1.certificates
    ∧ issueCertificate stC1 ⟨7, .student⟩ 1 99 6 43 = (stC1, .certOnlyPaid)
    ∧ Resp.certOnlyPaid ≠ .certData 5 42 10 200 := by
  decide

/-- C1 amended: at most one Certificate per (student, course) is an invariant
the issue operation preserves; and whenever a certificate already exists AND
the caller is a student holding a PAID enrollment in the published course,
issuance returns the existing certificate's id, code and timestamp unchanged
as a 200 success and mutates no state. (The idempotency check runs after the
paid-enrollment check, not before all eligibility checks.) -/
theorem C1_issue_idempotent_for_paid_and_unique (s : St) (u : User)
    (now certId code : Nat) (course : Course) (en : Enrollment) (cert : Certificate)
    (hrole : u.role = .student)
    (hcm : course ∈ s.courses) (hpub : course.isPublished = true)
    (hcu : ∀ c ∈ s.courses, c.id = course.id → c = course)
    (hem : en ∈ s.enrollments) (hekey : enrollKey u.id course.id en = true)
    (hep : en.enrollmentType = .paid)
    (heu : ∀ e2 ∈ s.enrollments, enrollKey u.id course.id e2 = true → e2 = en)
    (hcertm : cert ∈ s.certificates) (hcuid : cert.userId = u.id)
    (hccid : cert.courseId = course.id)
    (hcertu : ∀ c2 ∈ s.certificates, c2.userId = u.id → c2.courseId = course.id → c2 = cert) :
    issueCertificate s u course.id now certId code =
      (s, .certData cert.id cert.certificateCode cert.issuedAt 200)
    ∧ ∀ (s2 : St) (u2 : User) (cid2 now2 certId2 code2 : Nat),
        AtMostOneCert s2 → AtMostOneCert (issueCertificate s2 u2 cid2 now2 certId2 code2).1 := by
  constructor
  · have h1 : s.courses.find? (fun c => c.id == course.id && c.isPublished) = some course :=
      findCourse_eq s course hcm hpub hcu
    have h2 : s.enrollments.find?
        (fun e => enrollKey u.id course.id e && e.enrollmentType == EnrollType.paid) = some en := by
      apply find?_eq_some_of_unique
      · exact hem
      · simp [hekey, hep]
      · intro b hb hpb
        simp only [Bool.and_eq_true] at hpb
        exact heu b hb hpb.1
    have h3 : s.certificates.find? (fun c => c.userId == u.id && c.courseId == course.id) =
        some cert := by
      apply find?_eq_some_of_unique
      · exact hcertm
      · simp [hcuid, hccid]
      · intro b hb hpb
        simp only [Bool.and_eq_true, beq_iff_eq] at hpb
        exact hcertu b hb hpb.1 hpb.2
    simp [issueCertificate, hrole, h1, h2, h3]
  · intro s2 u2 cid2 now2 certId2 code2 hone
    unfold issueCertificate
    split
    · exact hone
    · split
      · exact hone
      · next course2 hcourse2 =>
        split
        · exact hone
        · split
          · exact hone
          · next hnone =>
            dsimp only
            split
            · exact hone
            · split
              · exact hone
              · intro c1 h1 c2 h2 hu hc
                have hall := List.find?_eq_none.mp hnone
                simp only [List.mem_append, List.mem_singleton] at h1 h2
                rcases h1 with h1 | h1
                · rcases h2 with h2 | h2
                  · exact hone c1 h1 c2 h2 hu hc
                  · exfalso
                    apply hall c1 h1
                    rw [h2] at hu hc
                    simp at hu hc
                    simp [hu, hc]
                · rcases h2 with h2 | h2
                  · exfalso
                    apply hall c2 h2
                    rw [h1] at hu hc
                    simp at hu hc
                    simp [← hu, ← hc]
                  · rw [h1, h2]

/-- C1 witness: at a state where the paid enrollment and the certificate both
exist, re-issuance returns the recorded certificate unchanged. -/
theorem C1_issue_idempotent_witness :
    issueCertificate stC1W ⟨7, .student⟩ 1 99 6 43 = (stC1W, .certData 5 42 10 200) :=
  (C1_issue_idempotent_for_paid_and_unique stC1W ⟨7, .student⟩ 99 6 43
    ⟨1, 9, 50, true⟩ ⟨7, 1, 100, .paid, 50, true⟩ ⟨5, 7, 1, 42, 10⟩
    rfl (by decide) rfl (by decide) (by decide) (by decide) rfl (by decide)
    (by decide) rfl rfl (by decide)).1

/-- C2: after a successful complete-lesson call, the persisted
`progress_percent` of the enrollment row equals
`floor(completed * 100 / total)` recomputed over the post-state tables; the
formula yields 0 for a course with no lessons; and it is at most 100
whenever `completed ≤ total` (and is a natural number, hence at least 0). -/
theorem C2_progress_percent_correct (s : St) (u : User) (lid now : Nat)
    (lesson : Lesson) (cid : Nat) (e0 : Enrollment)
    (hl : s.lessons.find? (fun l => l.id == lid) = some lesson)
    (hc : courseIdOfLesson s lesson = some cid)
    (he : s.enrollments.find? (enrollKey u.id cid) = some e0) :
    (∀ e ∈ (completeLesson s u lid now).1.enrollments, enrollKey u.id cid e = true →
        e.progressPercent =
          recalcPercent (totalLessons (completeLesson s u lid now).1 cid)
            (completedLessons (completeLesson s u lid now).1 u.id cid))
    ∧ (∀ c, recalcPercent 0 c = 0)
    ∧ (∀ t c, c ≤ t → recalcPercent t c ≤ 100) := by
  refine ⟨?_, fun c => recalcPercent_zero c, fun t c h => recalcPercent_le_100 t c h⟩
  rw [completeLesson_success s u lid now lesson cid e0 hl hc he]
  intro e he2 hkey
  have he3 : e ∈ setProgressPercent s.enrollments u.id cid
      (postPct s u.id cid lesson.id now) := he2
  unfold setProgressPercent at he3
  rcases List.mem_map.mp he3 with ⟨x, _, rfl⟩
  rw [enrollKey_setPctFun] at hkey
  show (setPctFun u.id cid (postPct s u.id cid lesson.id now) x).progressPercent = _
  unfold setPctFun
  rw [if_pos hkey]
  rfl

/-- C2 witness: in `stC2W` (two lessons, none completed yet), completing
lesson 1 persists 50 percent, which matches the recomputation over the
post-state. -/
theorem C2_progress_percent_witness :
    (Enrollment.mk 7 1 50 .audit 0 false) ∈
        (completeLesson stC2W ⟨7, .student⟩ 1 5).1.enrollments
    ∧ (50 : Nat) = recalcPercent (totalLessons (completeLesson stC2W ⟨7, .student⟩ 1 5).1 1)
        (completedLessons (completeLesson stC2W ⟨7, .student⟩ 1 5).1 7 1) :=
  ⟨by decide,
    (C2_progress_percent_correct stC2W ⟨7, .student⟩ 1 5 ⟨1, 1⟩ 1
        ⟨7, 1, 0, .audit, 0, false⟩ (by decide) (by decide) (by decide)).1
      ⟨7, 1, 50, .audit, 0, false⟩ (by decide) (by decide)⟩

/-- C3: completing the same lesson twice yields exactly the same state and
the same response as completing it once — the second call changes neither
the `LessonProgress` row (in particular `completed_at`) nor the enrollment,
and returns the same `progress_percent`, whatever the second timestamp. -/
theorem C3_complete_lesson_idempotent (s : St) (u : User) (lid now1 now2 : Nat)
    (lesson : Lesson) (cid : Nat) (e0 : Enrollment)
    (hl : s.lessons.find? (fun l => l.id == lid) = some lesson)
    (hc : courseIdOfLesson s lesson = some cid)
    (he : s.enrollments.find? (enrollKey u.id cid) = some e0) :
    completeLesson (completeLesson s u lid now1).1 u lid now2 =
      completeLesson s u lid now1 := by
  rw [completeLesson_success s u lid now1 lesson cid e0 hl hc he]
  have hl1 : (postState s u.id cid lesson.id now1).lessons.find? (fun l => l.id == lid) =
      some lesson := hl
  have hc1 : courseIdOfLesson (postState s u.id cid lesson.id now1) lesson = some cid := hc
  have he1 : (postState s u.id cid lesson.id now1).enrollments.find? (enrollKey u.id cid) =
      some (setPctFun u.id cid (postPct s u.id cid lesson.id now1) e0) := by
    show (setProgressPercent s.enrollments u.id cid
        (postPct s u.id cid lesson.id now1)).find? (enrollKey u.id cid) = _
    unfold setProgressPercent
    rw [find?_map_pres _ _ _ (fun x => enrollKey_setPctFun u.id cid u.id cid _ x), he]
    rfl
  show completeLesson (postState s u.id cid lesson.id now1) u lid now2 = _
  rw [completeLesson_success (postState s u.id cid lesson.id now1) u lid now2 lesson cid _
    hl1 hc1 he1]
  have hpp : postProgresses (postState s u.id cid lesson.id now1) u.id cid lesson.id now2 =
      postProgresses s u.id cid lesson.id now1 := by
    show markCompleted (getOrCreateProgress (postProgresses s u.id cid lesson.id now1)
        u.id cid lesson.id) u.id cid lesson.id now2 = _
    rw [getOrCreate_post, markCompleted_post]
  have hpct : postPct (postState s u.id cid lesson.id now1) u.id cid lesson.id now2 =
      postPct s u.id cid lesson.id now1 := by
    show recalcPercent (totalLessons (postState s u.id cid lesson.id now1) cid)
        (completedIn (postProgresses (postState s u.id cid lesson.id now1) u.id cid
          lesson.id now2) u.id cid) = _
    rw [hpp]
    rfl
  have henr : setProgressPercent
      (setProgressPercent s.enrollments u.id cid (postPct s u.id cid lesson.id now1))
      u.id cid (postPct s u.id cid lesson.id now1) =
      setProgressPercent s.enrollments u.id cid (postPct s u.id cid lesson.id now1) := by
    unfold setProgressPercent
    rw [List.map_map]
    exact List.map_congr_left
      (fun a _ => setPctFun_idem u.id cid (postPct s u.id cid lesson.id now1) a)
  have hps : postState (postState s u.id cid lesson.id now1) u.id cid lesson.id now2 =
      postState s u.id cid lesson.id now1 := by
    ext1
    · rfl
    · rfl
    · rfl
    · show setProgressPercent (postState s u.id cid lesson.id now1).enrollments u.id cid
          (postPct (postState s u.id cid lesson.id now1) u.id cid lesson.id now2) =
        setProgressPercent s.enrollments u.id cid (postPct s u.id cid lesson.id now1)
      rw [hpct]
      exact henr
    · exact hpp
    · rfl
    · rfl
    · rfl
  rw [hps, hpct]

/-- C3 witness: completing lesson 1 of `stC2W` twice (timestamps 5 then 9)
equals completing it once. -/
theorem C3_complete_lesson_idempotent_witness :
    completeLesson (completeLesson stC2W ⟨7, .student⟩ 1 5).1 ⟨7, .student⟩ 1 9 =
      completeLesson stC2W ⟨7, .student⟩ 1 5 :=
  C3_complete_lesson_idempotent stC2W ⟨7, .student⟩ 1 5 9 ⟨1, 1⟩ 1
    ⟨7, 1, 0, .audit, 0, false⟩ (by decide) (by decide) (by decide)

/-- C4 counterexample: with an existing audit enrollment, requesting audit
again is not an "already enrolled" no-op success: the view falls through to
its 400 'Invalid enrollment state.' error response (though it still mutates
nothing). -/
theorem C4_audit_audit_fallback_counterexample :
    purchaseCourse stC4 ⟨7, .student⟩ 1 "audit" = (stC4, .invalidEnrollmentState)
    ∧ Resp.invalidEnrollmentState.isError = true := by
  decide

/-- C4 amended: for a student who is not the course owner and a published
course, the purchase outcome matches the five-row table — with the
audit+audit row corrected to the 400 'Invalid enrollment state.' fallback
(no-op) — the payment ledger gains exactly the entry the table prescribes,
and exactly one Enrollment row for the pair exists afterwards. -/
theorem C4_purchase_resolver_table (s : St) (u : User) (mode : String) (course : Course)
    (hrole : u.role = .student)
    (hcm : course ∈ s.courses) (hpub : course.isPublished = true)
    (hcu : ∀ c ∈ s.courses, c.id = course.id → c = course)
    (hown : course.teacherId ≠ u.id)
    (hmode : mode = "audit" ∨ mode = "paid")
    (hone : (s.enrollments.filter (enrollKey u.id course.id)).length ≤ 1) :
    (purchaseCourse s u course.id mode).2 =
      tableOutcome ((s.enrollments.find? (enrollKey u.id course.id)).map
        Enrollment.enrollmentType) mode
    ∧ (purchaseCourse s u course.id mode).1.payments =
        s.payments ++ tablePayments ((s.enrollments.find? (enrollKey u.id course.id)).map
          Enrollment.enrollmentType) mode u.id course.id course.price
    ∧ ((purchaseCourse s u course.id mode).1.enrollments.filter
        (enrollKey u.id course.id)).length = 1 := by
  have hfind : s.courses.find? (fun c => c.id == course.id && c.isPublished) = some course :=
    findCourse_eq s course hcm hpub hcu
  have hrole' : (u.role != Role.student) = false := by rw [hrole]; rfl
  have hown' : (course.teacherId == u.id) = false := by
    rw [beq_eq_false_iff_ne]
    exact hown
  cases henr : s.enrollments.find? (enrollKey u.id course.id) with
  | none =>
    rcases hmode with rfl | rfl
    · have hres : purchaseCourse s u course.id "audit" =
          ({ s with enrollments := s.enrollments ++
              [⟨u.id, course.id, 0, .audit, 0, false⟩] }, .enrolledAsAudit) := by
        simp only [purchaseCourse, hrole', hfind, hown', henr]
        rfl
      rw [hres]
      refine ⟨rfl, by simp [tablePayments], ?_⟩
      exact count_append_one_of_find_none _ _ _ _ henr (by simp [enrollKey])
    · have hres : purchaseCourse s u course.id "paid" =
          ({ s with
              enrollments := s.enrollments ++
                [⟨u.id, course.id, 0, .paid, course.price, false⟩],
              payments := s.payments ++ [⟨u.id, course.id, course.price, "single"⟩] },
           .coursePurchased) := by
        simp only [purchaseCourse, hrole', hfind, hown', henr]
        rfl
      rw [hres]
      refine ⟨rfl, by simp [tablePayments], ?_⟩
      exact count_append_one_of_find_none _ _ _ _ henr (by simp [enrollKey])
  | some ex =>
    have hcount := count_one_of_find_some s.enrollments u.id course.id ex henr hone
    cases hex : ex.enrollmentType with
    | paid =>
      have hb : (ex.enrollmentType == EnrollType.paid) = true := by rw [hex]; rfl
      have hres : purchaseCourse s u course.id mode = (s, .alreadyPurchased) := by
        rcases hmode with rfl | rfl <;>
          (simp only [purchaseCourse, hrole', hfind, hown', henr, hb]; rfl)
      rw [hres]
      exact ⟨by simp [tableOutcome, hex], by simp [tablePayments, hex], hcount⟩
    | audit =>
      have hb1 : (ex.enrollmentType == EnrollType.paid) = false := by rw [hex]; rfl
      rcases hmode with rfl | rfl
      · have hb2 : (ex.enrollmentType == EnrollType.audit && "audit" == "paid") = false := by
          rw [hex]; rfl
        have hres : purchaseCourse s u course.id "audit" = (s, .invalidEnrollmentState) := by
          simp only [purchaseCourse, hrole', hfind, hown', henr, hb1, hb2]
          rfl
        rw [hres]
        exact ⟨by simp [tableOutcome, hex], by simp [tablePayments, hex], hcount⟩
      · have hb2 : (ex.enrollmentType == EnrollType.audit && "paid" == "paid") = true := by
          rw [hex]; rfl
        have hres : purchaseCourse s u course.id "paid" =
            ({ s with
                enrollments := upgradeToPaid s.enrollments u.id course.id course.price,
                payments := s.payments ++ [⟨u.id, course.id, course.price, "upgrade"⟩] },
             .upgradedToPaid) := by
          simp only [purchaseCourse, hrole', hfind, hown', henr, hb1, hb2]
          rfl
        rw [hres]
        refine ⟨by simp [tableOutcome, hex], by simp [tablePayments, hex], ?_⟩
        rw [count_upgrade]
        exact hcount

/-- C4 witness: on `stC4` (existing audit enrollment), requesting paid
upgrades in place, records an upgrade payment, and leaves exactly one row. -/
theorem C4_purchase_resolver_witness :
    (purchaseCourse stC4 ⟨7, .student⟩ 1 "paid").2 =
      tableOutcome ((stC4.enrollments.find? (enrollKey 7 1)).map
        Enrollment.enrollmentType) "paid"
    ∧ (purchaseCourse stC4 ⟨7, .student⟩ 1 "paid").1.payments =
        stC4.payments ++ tablePayments ((stC4.enrollments.find? (enrollKey 7 1)).map
          Enrollment.enrollmentType) "paid" 7 1 50
    ∧ ((purchaseCourse stC4 ⟨7, .student⟩ 1 "paid").1.enrollments.filter
        (enrollKey 7 1)).length = 1 :=
  C4_purchase_resolver_table stC4 ⟨7, .student⟩ "paid" ⟨1, 9, 50, true⟩ rfl (by decide) rfl
    (by decide) (by decide) (Or.inr rfl) (by decide)

/-- C5 counterexample: the plain enroll endpoint performs no ownership check:
user 9, the teacher who owns course 1, successfully creates an enrollment in
their own course. -/
theorem C5_owner_enroll_succeeds_counterexample :
    enrollCourse stC5 ⟨9, .teacher⟩ 1 =
      ({ stC5 with enrollments := [⟨9, 1, 0, .audit, 0, false⟩] },
       .enrollCreated ⟨9, 1, 0, .audit, 0, false⟩)
    ∧ stC5.courses.map Course.teacherId = [9] := by
  decide

/-- C5 amended: the purchase endpoint rejects the course owner before any
mutation (as 403 only-students or 400 self-purchase, depending on the
owner's role), but the plain enroll endpoint has no ownership check: an
owner who is not yet enrolled gets a fresh default (audit) Enrollment row. -/
theorem C5_owner_purchase_denied_enroll_allowed (s : St) (u : User) (mode : String)
    (course : Course)
    (hcm : course ∈ s.courses) (hpub : course.isPublished = true)
    (hcu : ∀ c ∈ s.courses, c.id = course.id → c = course)
    (hown : course.teacherId = u.id)
    (hnoe : ∀ e ∈ s.enrollments, enrollKey u.id course.id e = false) :
    (purchaseCourse s u course.id mode = (s, .onlyStudents)
      ∨ purchaseCourse s u course.id mode = (s, .cannotPurchaseOwn))
    ∧ enrollCourse s u course.id =
        ({ s with enrollments := s.enrollments ++ [⟨u.id, course.id, 0, .audit, 0, false⟩] },
         .enrollCreated ⟨u.id, course.id, 0, .audit, 0, false⟩) := by
  have hfind : s.courses.find? (fun c => c.id == course.id && c.isPublished) = some course :=
    findCourse_eq s course hcm hpub hcu
  constructor
  · by_cases hr : u.role = .student
    · right
      have hrole' : (u.role != Role.student) = false := by rw [hr]; rfl
      have hown' : (course.teacherId == u.id) = true := by simp [hown]
      simp only [purchaseCourse, hrole', hfind, hown']
      rfl
    · left
      have hrole' : (u.role != Role.student) = true := by
        cases hu : u.role
        · exact absurd hu hr
        · rfl
        · rfl
      simp only [purchaseCourse, hrole']
      rfl
  · have hnone : s.enrollments.find? (enrollKey u.id course.id) = none :=
      List.find?_eq_none.mpr (fun e he => by simp [hnoe e he])
    simp only [enrollCourse, hfind, hnone]

/-- C5 witness: owner 9 of course 1 (role teacher) is denied by purchase but
successfully enrolled by the plain enroll endpoint. -/
theorem C5_owner_purchase_denied_witness :
    (purchaseCourse stC5 ⟨9, .teacher⟩ 1 "paid" = (stC5, .onlyStudents)
      ∨ purchaseCourse stC5 ⟨9, .teacher⟩ 1 "paid" = (stC5, .cannotPurchaseOwn))
    ∧ enrollCourse stC5 ⟨9, .teacher⟩ 1 =
        ({ stC5 with enrollments := [⟨9, 1, 0, .audit, 0, false⟩] },
         .enrollCreated ⟨9, 1, 0, .audit, 0, false⟩) :=
  C5_owner_purchase_denied_enroll_allowed stC5 ⟨9, .teacher⟩ "paid" ⟨1, 9, 50, true⟩
    (by decide) rfl (by decide) rfl (by decide)

/-- C6: for a student on a published course with no existing certificate,
issuance fails with the distinct not-paid reason when no paid enrollment
exists (whatever the completion), with the distinct no-lessons reason when
the paid enrollment exists but the course has zero lessons, with the
distinct not-completed reason when completed < total, and mints exactly when
paid, total > 0 and completed ≥ total; the three reasons are pairwise
distinct responses. -/
theorem C6_certificate_gating_reasons (s : St) (u : User) (now certId code : Nat)
    (course : Course)
    (hrole : u.role = .student)
    (hcm : course ∈ s.courses) (hpub : course.isPublished = true)
    (hcu : ∀ c ∈ s.courses, c.id = course.id → c = course)
    (hnocert : ∀ c ∈ s.certificates, (c.userId == u.id && c.courseId == course.id) = false) :
    ((∀ e ∈ s.enrollments,
        (enrollKey u.id course.id e && e.enrollmentType == EnrollType.paid) = false) →
      issueCertificate s u course.id now certId code = (s, .certOnlyPaid))
    ∧ (∀ en ∈ s.enrollments,
        (enrollKey u.id course.id en && en.enrollmentType == EnrollType.paid) = true →
        (∀ e2 ∈ s.enrollments,
          (enrollKey u.id course.id e2 && e2.enrollmentType == EnrollType.paid) = true →
            e2 = en) →
        (totalLessons s course.id = 0 →
          issueCertificate s u course.id now certId code = (s, .courseHasNoLessons))
        ∧ (completedLessons s u.id course.id < totalLessons s course.id →
            issueCertificate s u course.id now certId code = (s, .courseNotCompleted))
        ∧ (0 < totalLessons s course.id →
            totalLessons s course.id ≤ completedLessons s u.id course.id →
            issueCertificate s u course.id now certId code =
              ({ s with
                  certificates := s.certificates ++ [⟨certId, u.id, course.id, code, now⟩],
                  enrollments := setGranted s.enrollments u.id course.id },
               .certData certId code now 201)))
    ∧ (Resp.certOnlyPaid ≠ .courseHasNoLessons ∧ Resp.certOnlyPaid ≠ .courseNotCompleted
        ∧ Resp.courseHasNoLessons ≠ .courseNotCompleted) := by
  have hfind : s.courses.find? (fun c => c.id == course.id && c.isPublished) = some course :=
    findCourse_eq s course hcm hpub hcu
  have hrole' : (u.role != Role.student) = false := by rw [hrole]; rfl
  have hnone : s.certificates.find? (fun c => c.userId == u.id && c.courseId == course.id) =
      none :=
    List.find?_eq_none.mpr (fun c hc => by simp [hnocert c hc])
  refine ⟨?_, ?_, by decide, by decide, by decide⟩
  · intro hnopaid
    have hen : s.enrollments.find?
        (fun e => enrollKey u.id course.id e && e.enrollmentType == EnrollType.paid) = none :=
      List.find?_eq_none.mpr (fun e he => by simp [hnopaid e he])
    simp only [issueCertificate, hrole', hfind, hen]
    rfl
  · intro en hmem hpaid huniq
    have hen : s.enrollments.find?
        (fun e => enrollKey u.id course.id e && e.enrollmentType == EnrollType.paid) =
        some en :=
      find?_eq_some_of_unique _ _ _ hmem hpaid huniq
    refine ⟨?_, ?_, ?_⟩
    · intro htot
      have hb : (totalLessons s course.id == 0) = true := by simp [htot]
      simp only [issueCertificate, hrole', hfind, hen, hnone, hb]
      rfl
    · intro hlt
      have hb : (totalLessons s course.id == 0) = false := by
        have : totalLessons s course.id ≠ 0 := by omega
        simp [this]
      simp only [issueCertificate, hrole', hfind, hen, hnone, hb]
      rw [if_pos hlt]
      rfl
    · intro hpos hge
      have hb : (totalLessons s course.id == 0) = false := by
        have : totalLessons s course.id ≠ 0 := by omega
        simp [this]
      simp only [issueCertificate, hrole', hfind, hen, hnone, hb]
      rw [if_neg (Nat.not_lt.mpr hge)]
      rfl

/-- C6 witness: in `stC6W` (paid enrollment, single lesson completed, no
certificate yet) issuance mints certificate 11 with code 77 and flags the
enrollment. -/
theorem C6_certificate_gating_witness :
    issueCertificate stC6W ⟨7, .student⟩ 1 50 11 77 =
      ({ stC6W with
          certificates := [⟨11, 7, 1, 77, 50⟩],
          enrollments := [⟨7, 1, 100, .paid, 50, true⟩] },
       .certData 11 77 50 201) :=
  ((C6_certificate_gating_reasons stC6W ⟨7, .student⟩ 50 11 77 ⟨1, 9, 50, true⟩ rfl
      (by decide) rfl (by decide) (by decide)).2.1 ⟨7, 1, 100, .paid, 50, false⟩
    (by decide) (by decide) (by decide)).2.2 (by decide) (by decide)

/-- C7: the cart-checkout path does not upgrade an existing AUDIT enrollment
in place; it attempts a fresh `Enrollment.objects.create`, which the
`unique_together ['student', 'course']` constraint rejects, so checkout with
an audit-enrolled course in the cart fails with an IntegrityError and the
enrollment stays audit. -/
theorem C7_cart_checkout_audit_bug :
    cartCheckout stC7 ⟨7, .student⟩ = (stC7, .integrityError [] [])
    ∧ stC7.enrollments.map Enrollment.enrollmentType = [.audit]
    ∧ (cartCheckout stC7 ⟨7, .student⟩).1.enrollments.map Enrollment.enrollmentType
        = [.audit] := by
  decide

/-- C8: starting from a state whose cached percentages are consistent with
the tables (the invariant every reachable state satisfies), the persisted
`progress_percent` of any fixed (student, course) pair is non-decreasing
across an arbitrary sequence of complete-lesson calls, and the consistency
invariant is preserved throughout. -/
theorem C8_progress_monotone (s : St) (calls : List (User × Nat × Nat)) (sid cid : Nat)
    (hcons : Consistent s) :
    pctOf s sid cid ≤ pctOf (runCompletions s calls) sid cid
    ∧ Consistent (runCompletions s calls) := by
  refine ⟨?_, runCompletions_consistent calls s hcons⟩
  induction calls generalizing s with
  | nil => exact Nat.le_refl _
  | cons c rest ih =>
    exact Nat.le_trans (completeLesson_pct_mono s c.1 c.2.1 c.2.2 sid cid hcons)
      (ih _ (completeLesson_consistent s c.1 c.2.1 c.2.2 hcons))

/-- C8 witness: on `stC8W` the percentage of (student 7, course 1) does not
decrease over the two-call completion sequence. -/
theorem C8_progress_monotone_witness :
    pctOf stC8W 7 1 ≤
      pctOf (runCompletions stC8W [(⟨7, .student⟩, 1, 5), (⟨7, .student⟩, 2, 6)]) 7 1 :=
  (C8_progress_monotone stC8W [(⟨7, .student⟩, 1, 5), (⟨7, .student⟩, 2, 6)] 7 1
    (by unfold Consistent; decide)).1

/-- C9: whenever any of the three operations (complete-lesson, purchase,
issue-certificate) returns an error response, the state it returns is
exactly the state it was given — every precondition is checked before any
mutation. -/
theorem C9_errors_mutate_nothing (s : St) (u : User) (mode : String)
    (lid now cid now2 certId code : Nat) :
    ((completeLesson s u lid now).2.isError = true → (completeLesson s u lid now).1 = s)
    ∧ ((purchaseCourse s u cid mode).2.isError = true →
        (purchaseCourse s u cid mode).1 = s)
    ∧ ((issueCertificate s u cid now2 certId code).2.isError = true →
        (issueCertificate s u cid now2 certId code).1 = s) := by
  refine ⟨?_, ?_, ?_⟩
  · unfold completeLesson
    repeat' split
    all_goals intro h
    all_goals first
      | rfl
      | simp [Resp.isError] at h
  · unfold purchaseCourse
    repeat' split
    all_goals intro h
    all_goals first
      | rfl
      | simp [Resp.isError] at h
  · unfold issueCertificate
    dsimp only
    repeat' split
    all_goals intro h
    all_goals first
      | rfl
      | simp [Resp.isError] at h

/-- C9 witness: on the empty database all three operations fail (lesson or
course not found) and leave the state untouched. -/
theorem C9_errors_mutate_nothing_witness :
    (completeLesson stC9W ⟨7, .student⟩ 1 0).1 = stC9W
    ∧ (purchaseCourse stC9W ⟨7, .student⟩ 1 "paid").1 = stC9W
    ∧ (issueCertificate stC9W ⟨7, .student⟩ 1 0 1 1).1 = stC9W :=
  ⟨(C9_errors_mutate_nothing stC9W ⟨7, .student⟩ "paid" 1 0 1 0 1 1).1 (by decide),
   (C9_errors_mutate_nothing stC9W ⟨7, .student⟩ "paid" 1 0 1 0 1 1).2.1 (by decide),
   (C9_errors_mutate_nothing stC9W ⟨7, .student⟩ "paid" 1 0 1 0 1 1).2.2 (by decide)⟩

/-- C10: the complete-lesson operation never consults `is_published`: for an
enrolled student and an existing lesson it succeeds even on an unpublished
course, while purchase and certificate-issue both answer the
course-not-found error for that same unpublished course. -/
theorem C10_unpublished_course_asymmetry (s : St) (u : User)
    (lid now now2 certId code : Nat) (mode : String) (course : Course) (lesson : Lesson)
    (e0 : Enrollment)
    (_hcm : course ∈ s.courses) (hunpub : course.isPublished = false)
    (hcu : ∀ c ∈ s.courses, c.id = course.id → c = course)
    (hrole : u.role = .student)
    (hl : s.lessons.find? (fun l => l.id == lid) = some lesson)
    (hc : courseIdOfLesson s lesson = some course.id)
    (he : s.enrollments.find? (enrollKey u.id course.id) = some e0) :
    completeLesson s u lid now =
      (postState s u.id course.id lesson.id now,
       .lessonCompleted lesson.id (postPct s u.id course.id lesson.id now))
    ∧ purchaseCourse s u course.id mode = (s, .courseNotFound)
    ∧ issueCertificate s u course.id now2 certId code = (s, .courseNotFound) := by
  have hnone : s.courses.find? (fun c => c.id == course.id && c.isPublished) = none := by
    apply List.find?_eq_none.mpr
    intro c hcmem hp
    simp only [Bool.and_eq_true, beq_iff_eq] at hp
    have hceq := hcu c hcmem hp.1
    rw [hceq, hunpub] at hp
    exact absurd hp.2 (by simp)
  have hrole' : (u.role != Role.student) = false := by rw [hrole]; rfl
  refine ⟨completeLesson_success s u lid now lesson course.id e0 hl hc he, ?_, ?_⟩
  · simp only [purchaseCourse, hrole', hnone]
    rfl
  · simp only [issueCertificate, hrole', hnone]
    rfl

/-- C10 witness: on `stC10W` (course 1 unpublished, student 7 enrolled,
lesson 1 exists) completion succeeds while purchase and issuance both return
the not-found error. -/
theorem C10_unpublished_course_asymmetry_witness :
    completeLesson stC10W ⟨7, .student⟩ 1 5 =
      (postState stC10W 7 1 1 5, .lessonCompleted 1 (postPct stC10W 7 1 1 5))
    ∧ purchaseCourse stC10W ⟨7, .student⟩ 1 "paid" = (stC10W, .courseNotFound)
    ∧ issueCertificate stC10W ⟨7, .student⟩ 1 0 1 1 = (stC10W, .courseNotFound) :=
  C10_unpublished_course_asymmetry stC10W ⟨7, .student⟩ 1 5 0 1 1 "paid"
    ⟨1, 9, 50, false⟩ ⟨1, 1⟩ ⟨7, 1, 0, .audit, 0, false⟩
    (by decide) rfl (by decide) rfl (by decide) (by decide) (by decide)

end LMS
